import Mathlib

/-!
Shallow embedding of `src/components/Model/model.utils.ts` (civitai):
filter-state readers, URL query-parameter codecs (zod schemas) and
cursor-paginated fetch hooks, together with proofs of the specified
properties.
-/

/-- A raw JavaScript value as it can appear in a router query object or in
a filter update: a string, a string array (repeated query key), a native
boolean, a number, `undefined` or `null`. -/
inductive JsVal where
  | str : String → JsVal
  | strArr : List String → JsVal
  | boolean : Bool → JsVal
  | num : Int → JsVal
  | undef : JsVal
  | null : JsVal
deriving DecidableEq, Repr

/-- A JavaScript object with string keys: `none` means the key is absent,
`some JsVal.undef` means the key is present with value `undefined`. -/
def JsObj : Type := String → Option JsVal

/-- The object with no keys. -/
def emptyObj : JsObj := fun _ => none

/-- Modelled from the spec: the emptiness predicate of the shared
`removeEmpty` utility (`~/utils/object-helpers`, not under `src/`).  The
spec pins down that `undefined` and `""` are empty and `"x"` is not;
`null` is treated as empty, numbers and arrays as non-empty. -/
def isEmptyVal : JsVal → Bool
  | JsVal.undef => true
  | JsVal.null => true
  | JsVal.str s => s == ""
  | _ => false

/-- Modelled from the spec: `removeEmpty` (`~/utils/object-helpers`, not
under `src/`) returns the object with all empty-valued fields removed. -/
def removeEmpty (o : JsObj) : JsObj := fun k =>
  match o k with
  | some v => if isEmptyVal v then none else some v
  | none => none

/-- JavaScript object spread `{...q, ...f}`: every key of `f` (even one
holding `undefined`) overrides the corresponding key of `q`. -/
def mergeObj (q f : JsObj) : JsObj := fun k =>
  match f k with
  | some v => some v
  | none => q k

/-- Modelled from the spec: character-level normalization step of
`postgresSlugify` (`~/utils/string-helpers`, not under `src/`): the slug
form is URL-safe, lowercase and delimiter-consistent, so uppercase ASCII
letters are lowered, lowercase letters and digits are kept, and every
other character becomes the `-` delimiter (code 45). -/
def slugCharCode (n : Nat) : Nat :=
  if 65 ≤ n ∧ n ≤ 90 then n + 32
  else if 97 ≤ n ∧ n ≤ 122 then n
  else if 48 ≤ n ∧ n ≤ 57 then n
  else 45

/-- Modelled from the spec: `postgresSlugify` (`~/utils/string-helpers`,
not under `src/`) maps a string to its URL/slug-safe, lowercase,
delimiter-consistent form, character by character. -/
def postgresSlugify (s : String) : String :=
  ⟨s.data.map (fun c => Char.ofNat (slugCharCode c.toNat))⟩

/-- Enumeration values of the Prisma `MetricTimeframe` enum.  Modelled
from the spec: the enum itself (`@prisma/client` generated code) is not
under `src/`; the spec only calls it the "time period" filter. -/
def metricTimeframeValues : List String :=
  ["Day", "Week", "Month", "Year", "AllTime"]

/-- Modelled from the spec: `periodModeSchema`
(`~/server/schema/base.schema`, not under `src/`) accepts the period
interpretation mode (fixed window vs. all-time stats). -/
def periodModeValues : List String := ["stats", "published"]

/-- Enumeration values of `ModelSort` (`~/server/common/enums`, not under
`src/`).  Modelled from the spec: a set of accepted model sort orders. -/
def modelSortValues : List String :=
  ["Highest Rated", "Most Downloaded", "Newest"]

/-- Enumeration values of `AppSort` (`~/server/common/enums`, not under
`src/`).  Modelled from the spec: a different enumeration of sort values
from `ModelSort`. -/
def appSortValues : List String := ["Most Installed", "Newest"]

/-- Accepted values of the `view` field: `z.enum(['categories', 'feed'])`. -/
def viewValues : List String := ["categories", "feed"]

/-- Result of `modelQueryParamSchema.safeParse` when it succeeds: the
typed, all-optional query parameters (`z.output` of the schema). -/
structure ModelQueryParams where
  period : Option String := none
  periodMode : Option String := none
  sort : Option String := none
  query : Option String := none
  user : Option String := none
  username : Option String := none
  tagname : Option String := none
  tag : Option String := none
  favorites : Option Bool := none
  hidden : Option Bool := none
  view : Option String := none
deriving DecidableEq, Repr

/-- An optional `z.string()` field: absent (or `undefined`) stays absent,
a string is accepted as is, anything else fails the whole parse. -/
def parseStringField : Option JsVal → Option (Option String)
  | none => some none
  | some JsVal.undef => some none
  | some (JsVal.str s) => some (some s)
  | some _ => none

/-- An optional enum field (`z.nativeEnum` / `z.enum`): absent stays
absent, a string is accepted iff it is one of the enumeration values,
anything else fails. -/
def parseEnumField (vals : List String) : Option JsVal → Option (Option String)
  | none => some none
  | some JsVal.undef => some none
  | some (JsVal.str s) => if s ∈ vals then some (some s) else none
  | some _ => none

/-- The preprocess step of the `favorites` and `hidden` fields:
`(val) => val === true || val === 'true'`. -/
def boolPreprocess (v : JsVal) : Bool :=
  v == JsVal.boolean true || v == JsVal.str "true"

/-- An optional boolean-like field:
`z.preprocess((val) => val === true || val === 'true', z.boolean())`.
Absent stays absent; any present value is normalized by the preprocess
step and then accepted by `z.boolean()`. -/
def parseBoolField : Option JsVal → Option (Option Bool)
  | none => some none
  | some JsVal.undef => some none
  | some v => some (some (boolPreprocess v))

/-- The optional `username` field: `usernameSchema.transform(postgresSlugify)`.
Modelled from the spec: `usernameSchema` (`~/server/schema/user.schema`,
not under `src/`) accepts a username string, which is then normalized
into its slug form before being accepted. -/
def parseUsernameField : Option JsVal → Option (Option String)
  | none => some none
  | some JsVal.undef => some none
  | some (JsVal.str s) => some (some (postgresSlugify s))
  | some _ => none

/-- `safeParse` of the all-optional query-parameter object schema,
parameterized by the enumeration used for the `sort` field.  Unrecognized
keys of the raw query are ignored; a validation failure of any recognized
field fails the whole parse (`none`). -/
def queryParamSchemaParse (sortVals : List String) (q : JsObj) :
    Option ModelQueryParams := do
  let period ← parseEnumField metricTimeframeValues (q "period")
  let periodMode ← parseEnumField periodModeValues (q "periodMode")
  let sort ← parseEnumField sortVals (q "sort")
  let query ← parseStringField (q "query")
  let user ← parseStringField (q "user")
  let username ← parseUsernameField (q "username")
  let tagname ← parseStringField (q "tagname")
  let tag ← parseStringField (q "tag")
  let favorites ← parseBoolField (q "favorites")
  let hidden ← parseBoolField (q "hidden")
  let view ← parseEnumField viewValues (q "view")
  some { period, periodMode, sort, query, user, username, tagname, tag,
         favorites, hidden, view }

/-- A query-parameter schema, presented by its `safeParse` function. -/
structure QuerySchema where
  safeParse : JsObj → Option ModelQueryParams

/-- `modelQueryParamSchema`: the model query-parameter schema, with
`sort` validated against `ModelSort`. -/
def modelQueryParamSchema : QuerySchema :=
  ⟨queryParamSchemaParse modelSortValues⟩

/-- `appQueryParamSchema`: `modelQueryParamSchema` with the `sort` field
replaced by `z.nativeEnum(AppSort)` (then `.partial()` again). -/
def appQueryParamSchema : QuerySchema :=
  ⟨queryParamSchemaParse appSortValues⟩

/-- The single default field returned on parse failure:
`{ view: 'categories' }`. -/
def categoriesFallback : ModelQueryParams := { view := some "categories" }

/-- What a query-parameter hook returns: the decoded (or fallback) data
and the `set` closure, which maps a partial update to the new URL query
passed to `router.replace` (shallow). -/
structure QueryParamsHook where
  data : ModelQueryParams
  set : JsObj → JsObj

/-- `useModelQueryParams`, as a function of the current raw URL query:
parses it with `modelQueryParamSchema`, falling back to
`{ view: 'categories' }`, and exposes
`set = (filters) => removeEmpty({...query, ...filters})`. -/
def useModelQueryParams (query : JsObj) : QueryParamsHook :=
  { data :=
      match modelQueryParamSchema.safeParse query with
      | some d => d
      | none => categoriesFallback,
    set := fun filters => removeEmpty (mergeObj query filters) }

/-- `useAppQueryParams`, identical to `useModelQueryParams` but parsing
with `appQueryParamSchema`. -/
def useAppQueryParams (query : JsObj) : QueryParamsHook :=
  { data :=
      match appQueryParamSchema.safeParse query with
      | some d => d
      | none => categoriesFallback,
    set := fun filters => removeEmpty (mergeObj query filters) }

/-- One page of a paginated list response: an ordered item sequence and
an optional cursor for the next page. -/
structure PageData (α : Type) where
  items : List α
  nextCursor : Option Int
deriving DecidableEq, Repr

/-- The pages state of an infinite query; an entry can be falsy
(`undefined`/`null`), modelled as `none`. -/
structure InfiniteData (α : Type) where
  pages : List (Option (PageData α))
deriving DecidableEq, Repr

/-- The backend endpoint an infinite query targets. -/
inductive Endpoint where
  | modelGetAll
  | modelGetAllAppsOnly
  | modelGetAllModelsOnly
deriving DecidableEq, Repr

/-- What a fetch hook computes, as a function of its filters argument and
of the currently loaded page data: the endpoint and the filter input of
the issued request, the next/previous page-cursor callbacks passed to the
infinite query, the batching bypass, and the derived flattened `models`
list. -/
structure QueryHookResult (α : Type) where
  endpoint : Endpoint
  input : JsObj
  getNextPageParam : Option (PageData α) → Option Int
  getPreviousPageParam : Option (PageData α) → Option Int
  skipBatch : Bool
  models : List α

/-- `useQueryModels`: `filters ??= {}`, an infinite query against
`trpc.model.getAll` with
`getNextPageParam: (lastPage) => (!!lastPage ? lastPage.nextCursor : 0)`,
`getPreviousPageParam: (firstPage) => (!!firstPage ? firstPage.nextCursor : 0)`,
batching skipped, and
`models = data?.pages.flatMap((x) => (!!x ? x.items : [])) ?? []`. -/
def useQueryModels {α : Type} (filters : Option JsObj)
    (data : Option (InfiniteData α)) : QueryHookResult α :=
  { endpoint := Endpoint.modelGetAll,
    input := filters.getD emptyObj,
    getNextPageParam := fun lastPage =>
      match lastPage with
      | some p => p.nextCursor
      | none => some 0,
    getPreviousPageParam := fun firstPage =>
      match firstPage with
      | some p => p.nextCursor
      | none => some 0,
    skipBatch := true,
    models :=
      match data with
      | some d =>
          (d.pages.map (fun x =>
            match x with
            | some p => p.items
            | none => [])).flatten
      | none => [] }

/-- `useQueryApps`: same as `useQueryModels`, targeting
`trpc.model.getAllAppsOnly`. -/
def useQueryApps {α : Type} (filters : Option JsObj)
    (data : Option (InfiniteData α)) : QueryHookResult α :=
  { endpoint := Endpoint.modelGetAllAppsOnly,
    input := filters.getD emptyObj,
    getNextPageParam := fun lastPage =>
      match lastPage with
      | some p => p.nextCursor
      | none => some 0,
    getPreviousPageParam := fun firstPage =>
      match firstPage with
      | some p => p.nextCursor
      | none => some 0,
    skipBatch := true,
    models :=
      match data with
      | some d =>
          (d.pages.map (fun x =>
            match x with
            | some p => p.items
            | none => [])).flatten
      | none => [] }

/-- `useQueryModelsOnly`: same as `useQueryModels`, targeting
`trpc.model.getAllModelsOnly`. -/
def useQueryModelsOnly {α : Type} (filters : Option JsObj)
    (data : Option (InfiniteData α)) : QueryHookResult α :=
  { endpoint := Endpoint.modelGetAllModelsOnly,
    input := filters.getD emptyObj,
    getNextPageParam := fun lastPage =>
      match lastPage with
      | some p => p.nextCursor
      | none => some 0,
    getPreviousPageParam := fun firstPage =>
      match firstPage with
      | some p => p.nextCursor
      | none => some 0,
    skipBatch := true,
    models :=
      match data with
      | some d =>
          (d.pages.map (fun x =>
            match x with
            | some p => p.items
            | none => [])).flatten
      | none => [] }

/-- The shared client-side filter store (`useFiltersContext`), restricted
to the two slices this file reads. -/
structure FilterStore where
  models : JsObj
  apps : JsObj

/-- `useModelFilters`: read the `models` slice of the store and strip its
empty fields. -/
def useModelFilters (state : FilterStore) : JsObj :=
  removeEmpty state.models

/-- `useAppFilters`: read the `apps` slice of the store and strip its
empty fields. -/
def useAppFilters (state : FilterStore) : JsObj :=
  removeEmpty state.apps

/-! ## Properties -/

/-- C1: whenever the query-parameter schema parse fails, both
`useModelQueryParams` and `useAppQueryParams` return exactly the
single-field object `{ view: 'categories' }`, preserving no other field
of the raw query. -/
theorem queryParams_parse_failure_fallback (q : JsObj) :
    (modelQueryParamSchema.safeParse q = none →
      (useModelQueryParams q).data = categoriesFallback) ∧
    (appQueryParamSchema.safeParse q = none →
      (useAppQueryParams q).data = categoriesFallback) := by
  constructor <;> intro h <;>
    simp [useModelQueryParams, useAppQueryParams, h]

/-- Witness for C1: a query whose `sort` value belongs to neither sort
enumeration makes both reads collapse to `{ view: 'categories' }`. -/
theorem queryParams_parse_failure_fallback_witness :
    (useModelQueryParams
        (fun k => if k = "sort" then some (JsVal.str "NotASort") else none)).data
        = categoriesFallback ∧
    (useAppQueryParams
        (fun k => if k = "sort" then some (JsVal.str "NotASort") else none)).data
        = categoriesFallback :=
  ⟨(queryParams_parse_failure_fallback _).1 (by decide),
   (queryParams_parse_failure_fallback _).2 (by decide)⟩

/-- C2: in all three fetch hooks the derived `models` list is the
concatenation of the pages' items in page order, preserving intra-page
order, a falsy page contributing zero items; with no page data the
result is empty; and `[{items:[1,2]}, undefined, {items:[3]}]` flattens
to `[1,2,3]`. -/
theorem queryHooks_models_flatten :
    (∀ (α : Type) (f : Option JsObj) (p : PageData α)
        (ps : List (Option (PageData α))),
      (useQueryModels f (some ⟨some p :: ps⟩)).models
          = p.items ++ (useQueryModels f (some ⟨ps⟩)).models ∧
      (useQueryModels f (some ⟨none :: ps⟩)).models
          = (useQueryModels f (some ⟨ps⟩)).models ∧
      (useQueryApps f (some ⟨some p :: ps⟩)).models
          = p.items ++ (useQueryApps f (some ⟨ps⟩)).models ∧
      (useQueryApps f (some ⟨none :: ps⟩)).models
          = (useQueryApps f (some ⟨ps⟩)).models ∧
      (useQueryModelsOnly f (some ⟨some p :: ps⟩)).models
          = p.items ++ (useQueryModelsOnly f (some ⟨ps⟩)).models ∧
      (useQueryModelsOnly f (some ⟨none :: ps⟩)).models
          = (useQueryModelsOnly f (some ⟨ps⟩)).models) ∧
    (∀ (α : Type) (f : Option JsObj),
      (useQueryModels f (none : Option (InfiniteData α))).models = [] ∧
      (useQueryApps f (none : Option (InfiniteData α))).models = [] ∧
      (useQueryModelsOnly f (none : Option (InfiniteData α))).models = [] ∧
      (useQueryModels f (some (⟨[]⟩ : InfiniteData α))).models = [] ∧
      (useQueryApps f (some (⟨[]⟩ : InfiniteData α))).models = [] ∧
      (useQueryModelsOnly f (some (⟨[]⟩ : InfiniteData α))).models = []) ∧
    (useQueryModels none
        (some (⟨[some ⟨[1, 2], none⟩, none, some ⟨[3], none⟩]⟩ :
          InfiniteData Int))).models = [1, 2, 3] ∧
    (useQueryApps none
        (some (⟨[some ⟨[1, 2], none⟩, none, some ⟨[3], none⟩]⟩ :
          InfiniteData Int))).models = [1, 2, 3] ∧
    (useQueryModelsOnly none
        (some (⟨[some ⟨[1, 2], none⟩, none, some ⟨[3], none⟩]⟩ :
          InfiniteData Int))).models = [1, 2, 3] := by
  refine ⟨?_, ?_, by decide, by decide, by decide⟩
  · intro α f p ps
    refine ⟨?_, ?_, ?_, ?_, ?_, ?_⟩ <;>
      simp [useQueryModels, useQueryApps, useQueryModelsOnly]
  · intro α f
    refine ⟨rfl, rfl, rfl, rfl, rfl, rfl⟩

/-- C3: in every fetch hook the next-page cursor callback returns the
last page's `nextCursor` when a last page exists and the sentinel `0`
when it does not; in particular `nextCursor = 5` yields cursor `5`. -/
theorem queryHooks_nextPageParam_cursor :
    (∀ (α : Type) (f : Option JsObj) (data : Option (InfiniteData α))
        (p : PageData α),
      (useQueryModels f data).getNextPageParam (some p) = p.nextCursor ∧
      (useQueryModels f data).getNextPageParam none = some 0 ∧
      (useQueryApps f data).getNextPageParam (some p) = p.nextCursor ∧
      (useQueryApps f data).getNextPageParam none = some 0 ∧
      (useQueryModelsOnly f data).getNextPageParam (some p) = p.nextCursor ∧
      (useQueryModelsOnly f data).getNextPageParam none = some 0) ∧
    (useQueryModels none (none : Option (InfiniteData Int))).getNextPageParam
        (some ⟨[], some 5⟩) = some 5 := by
  exact ⟨fun α f data p => ⟨rfl, rfl, rfl, rfl, rfl, rfl⟩, rfl⟩

/-- C4: the boolean-like preprocess used for `favorites` and `hidden`
maps the native boolean `true` and the string `"true"` to `true` and
every other value to `false`, and the codec records that normalized
boolean for both fields. -/
theorem boolLike_fields_normalization :
    (∀ v : JsVal,
      boolPreprocess v = true ↔ (v = JsVal.boolean true ∨ v = JsVal.str "true")) ∧
    (∀ v : JsVal, v ≠ JsVal.undef →
      (useModelQueryParams
          (fun k => if k = "favorites" then some v
                    else if k = "hidden" then some v else none)).data
        = { favorites := some (boolPreprocess v),
            hidden := some (boolPreprocess v) }) := by
  constructor
  · intro v
    cases v <;> simp [boolPreprocess]
  · intro v hv
    cases v with
    | undef => exact absurd rfl hv
    | str s =>
        simp [useModelQueryParams, modelQueryParamSchema,
          queryParamSchemaParse, parseEnumField, parseStringField,
          parseUsernameField, parseBoolField]
    | strArr l =>
        simp [useModelQueryParams, modelQueryParamSchema,
          queryParamSchemaParse, parseEnumField, parseStringField,
          parseUsernameField, parseBoolField]
    | boolean b =>
        simp [useModelQueryParams, modelQueryParamSchema,
          queryParamSchemaParse, parseEnumField, parseStringField,
          parseUsernameField, parseBoolField]
    | num n =>
        simp [useModelQueryParams, modelQueryParamSchema,
          queryParamSchemaParse, parseEnumField, parseStringField,
          parseUsernameField, parseBoolField]
    | null =>
        simp [useModelQueryParams, modelQueryParamSchema,
          queryParamSchemaParse, parseEnumField, parseStringField,
          parseUsernameField, parseBoolField]

/-- Witness for C4: the string `"yes"` (neither `true` nor `"true"`)
normalizes to `false` for both boolean-like fields. -/
theorem boolLike_fields_normalization_witness :
    (useModelQueryParams
        (fun k => if k = "favorites" then some (JsVal.str "yes")
                  else if k = "hidden" then some (JsVal.str "yes")
                  else none)).data
      = { favorites := some false, hidden := some false } :=
  boolLike_fields_normalization.2 (JsVal.str "yes") (by decide)

/-- Key algebraic fact behind C5: stripping-after-merging is stable under
re-merging the same update. -/
lemma removeEmpty_mergeObj_idem (q f : JsObj) :
    removeEmpty (mergeObj (removeEmpty (mergeObj q f)) f)
      = removeEmpty (mergeObj q f) := by
  funext k
  simp only [removeEmpty, mergeObj]
  cases hf : f k with
  | some v => rfl
  | none =>
      cases hq : q k with
      | some w =>
          by_cases hw : isEmptyVal w = true
          · simp [hw]
          · simp [hw]
      | none => rfl

/-- C5: for both codecs, `set` produces the empty-field-stripped merge of
the update over the current URL query, and applying the same update to
the resulting URL again yields the same URL query (idempotent merge). -/
theorem queryParams_set_merge_idempotent (q f : JsObj) :
    (useModelQueryParams q).set f = removeEmpty (mergeObj q f) ∧
    (useAppQueryParams q).set f = removeEmpty (mergeObj q f) ∧
    (useModelQueryParams ((useModelQueryParams q).set f)).set f
        = (useModelQueryParams q).set f ∧
    (useAppQueryParams ((useAppQueryParams q).set f)).set f
        = (useAppQueryParams q).set f :=
  ⟨rfl, rfl, removeEmpty_mergeObj_idem q f, removeEmpty_mergeObj_idem q f⟩

/-- C6: the app codec is the model codec with the `sort` field validated
against the `AppSort` enumeration instead of `ModelSort`: both schemas
instantiate the same parse with their sort enumeration, the enumerations
differ, the setters coincide on every query, and whenever the `sort`
field validates the same way under both enumerations the two hooks agree
entirely. -/
theorem appQueryParams_same_behavior_except_sort :
    modelQueryParamSchema.safeParse = queryParamSchemaParse modelSortValues ∧
    appQueryParamSchema.safeParse = queryParamSchemaParse appSortValues ∧
    appSortValues ≠ modelSortValues ∧
    (∀ q : JsObj, (useAppQueryParams q).set = (useModelQueryParams q).set) ∧
    (∀ q : JsObj,
      parseEnumField appSortValues (q "sort")
          = parseEnumField modelSortValues (q "sort") →
      useAppQueryParams q = useModelQueryParams q) := by
  refine ⟨rfl, rfl, by decide, fun q => rfl, ?_⟩
  intro q h
  have hp : appQueryParamSchema.safeParse q = modelQueryParamSchema.safeParse q := by
    show queryParamSchemaParse appSortValues q
        = queryParamSchemaParse modelSortValues q
    unfold queryParamSchemaParse
    rw [h]
  unfold useAppQueryParams useModelQueryParams
  rw [hp]

/-- Witness for C6: on the empty query (no `sort` present) the two hooks
agree. -/
theorem appQueryParams_same_behavior_except_sort_witness :
    useAppQueryParams emptyObj = useModelQueryParams emptyObj :=
  appQueryParams_same_behavior_except_sort.2.2.2.2 emptyObj rfl

/-- C7: the filter readers return the store slice with exactly the
non-empty fields kept (with their values), always succeed on an empty
slice, and `{a: undefined, b: "", c: "x"}` reduces to `{c: "x"}`. -/
theorem filter_readers_strip_empty :
    (∀ (state : FilterStore) (k : String) (v : JsVal),
      useModelFilters state k = some v ↔
        (state.models k = some v ∧ isEmptyVal v = false)) ∧
    (∀ (state : FilterStore) (k : String) (v : JsVal),
      useAppFilters state k = some v ↔
        (state.apps k = some v ∧ isEmptyVal v = false)) ∧
    (∀ k : String,
      useModelFilters ⟨emptyObj, emptyObj⟩ k = none ∧
      useAppFilters ⟨emptyObj, emptyObj⟩ k = none) ∧
    (∀ k : String,
      useModelFilters
        ⟨fun k' => if k' = "a" then some JsVal.undef
                   else if k' = "b" then some (JsVal.str "")
                   else if k' = "c" then some (JsVal.str "x") else none,
         emptyObj⟩ k
        = if k = "c" then some (JsVal.str "x") else none) := by
  have hrem : ∀ (o : JsObj) (k : String) (v : JsVal),
      removeEmpty o k = some v ↔ (o k = some v ∧ isEmptyVal v = false) := by
    intro o k v
    unfold removeEmpty
    cases h : o k with
    | none => simp
    | some w =>
        show (if isEmptyVal w = true then none else some w) = some v ↔
          (some w = some v ∧ isEmptyVal v = false)
        have hcases : isEmptyVal w = true ∨ isEmptyVal w = false := by
          cases isEmptyVal w
          · exact Or.inr rfl
          · exact Or.inl rfl
        rcases hcases with hw | hw
        · rw [if_pos hw]
          constructor
          · intro hc; exact Option.noConfusion hc
          · rintro ⟨h1, h2⟩
            obtain rfl : w = v := Option.some.inj h1
            rw [hw] at h2
            exact Bool.noConfusion h2
        · rw [if_neg (by rw [hw]; exact Bool.false_ne_true)]
          constructor
          · intro hc
            obtain rfl : w = v := Option.some.inj hc
            exact ⟨rfl, hw⟩
          · rintro ⟨h1, _⟩
            exact h1
  refine ⟨fun s k v => hrem s.models k v, fun s k v => hrem s.apps k v,
    fun k => ⟨rfl, rfl⟩, ?_⟩
  intro k
  by_cases ha : k = "a"
  · subst ha; decide
  · by_cases hb : k = "b"
    · subst hb; decide
    · by_cases hc : k = "c"
      · subst hc; decide
      · simp [useModelFilters, removeEmpty, ha, hb, hc]

/-- C8: a fetch hook called with the filters argument omitted or
`undefined` issues its request with the empty filter object. -/
theorem queryHooks_missing_filters_default_empty :
    ∀ (α : Type) (data : Option (InfiniteData α)),
      (useQueryModels none data).input = emptyObj ∧
      (useQueryApps none data).input = emptyObj ∧
      (useQueryModelsOnly none data).input = emptyObj :=
  fun _ _ => ⟨rfl, rfl, rfl⟩

/-- The image of the slug character map sits in the lowercase/digit/`-`
range. -/
lemma slugCharCode_range (n : Nat) :
    (97 ≤ slugCharCode n ∧ slugCharCode n ≤ 122) ∨
    (48 ≤ slugCharCode n ∧ slugCharCode n ≤ 57) ∨ slugCharCode n = 45 := by
  unfold slugCharCode
  split_ifs <;> omega

/-- The slug character map fixes every code in its own image range. -/
lemma slugCharCode_fix {m : Nat}
    (h : (97 ≤ m ∧ m ≤ 122) ∨ (48 ≤ m ∧ m ≤ 57) ∨ m = 45) :
    slugCharCode m = m := by
  unfold slugCharCode
  split_ifs <;> omega

/-- Every slug character code is a valid character code. -/
lemma slugCharCode_isValidChar (n : Nat) : (slugCharCode n).isValidChar := by
  have h := slugCharCode_range n
  unfold Nat.isValidChar
  omega

/-- `Char.ofNat` round-trips with `Char.toNat` on valid codes. -/
lemma char_toNat_ofNat {n : Nat} (h : n.isValidChar) :
    (Char.ofNat n).toNat = n := by
  simp [Char.ofNat, h, Char.ofNatAux, Char.toNat, UInt32.toNat,
    BitVec.toNat_ofNatLt]

/-- The character-level slug normalization is idempotent. -/
lemma slugChar_idem (c : Char) :
    Char.ofNat (slugCharCode ((Char.ofNat (slugCharCode c.toNat)).toNat))
      = Char.ofNat (slugCharCode c.toNat) := by
  rw [char_toNat_ofNat (slugCharCode_isValidChar _),
    slugCharCode_fix (slugCharCode_range _)]

/-- C9: username normalization is idempotent: `postgresSlugify` of an
already-slugified string is unchanged, so in particular any username the
schema accepts (and therefore normalized) is a fixpoint of the
normalization. -/
theorem username_normalization_idempotent :
    (∀ s : String, postgresSlugify (postgresSlugify s) = postgresSlugify s) ∧
    (∀ s t : String,
      parseUsernameField (some (JsVal.str s)) = some (some t) →
      postgresSlugify t = t) := by
  have idem : ∀ s : String,
      postgresSlugify (postgresSlugify s) = postgresSlugify s := by
    intro s
    unfold postgresSlugify
    congr 1
    show (s.data.map _).map _ = s.data.map _
    rw [List.map_map]
    refine List.map_congr_left ?_
    intro c _
    show Char.ofNat (slugCharCode ((Char.ofNat (slugCharCode c.toNat)).toNat))
      = Char.ofNat (slugCharCode c.toNat)
    exact slugChar_idem c
  refine ⟨idem, ?_⟩
  intro s t h
  simp only [parseUsernameField, Option.some.injEq] at h
  rw [← h]
  exact idem s

/-- Witness for C9: the schema accepts `"Some User_1"` as
`"some-user-1"`, which is a fixpoint of the normalization. -/
theorem username_normalization_idempotent_witness :
    postgresSlugify "some-user-1" = "some-user-1" :=
  username_normalization_idempotent.2 "Some User_1" "some-user-1" (by decide)

/-- C10: in every fetch hook the previous-page cursor callback is the
same function as the next-page one: it reads the adjacent (first) page's
`nextCursor` field when that page exists and falls back to the sentinel
`0` otherwise. -/
theorem queryHooks_prevPageParam_uses_nextCursor :
    ∀ (α : Type) (f : Option JsObj) (data : Option (InfiniteData α))
        (p : PageData α),
      (useQueryModels f data).getPreviousPageParam
          = (useQueryModels f data).getNextPageParam ∧
      (useQueryModels f data).getPreviousPageParam (some p) = p.nextCursor ∧
      (useQueryModels f data).getPreviousPageParam none = some 0 ∧
      (useQueryApps f data).getPreviousPageParam
          = (useQueryApps f data).getNextPageParam ∧
      (useQueryApps f data).getPreviousPageParam (some p) = p.nextCursor ∧
      (useQueryApps f data).getPreviousPageParam none = some 0 ∧
      (useQueryModelsOnly f data).getPreviousPageParam
          = (useQueryModelsOnly f data).getNextPageParam ∧
      (useQueryModelsOnly f data).getPreviousPageParam (some p) = p.nextCursor ∧
      (useQueryModelsOnly f data).getPreviousPageParam none = some 0 :=
  fun _ _ _ _ => ⟨rfl, rfl, rfl, rfl, rfl, rfl, rfl, rfl, rfl⟩
